import Mathlib

/-!
Verification of the `NomadStore` ACME persistence layer (package `acme`,
`nomad_store.go`): a write-through credential cache backed by Nomad
Variables.  The Go code is shallowly embedded: the store state becomes a
structure of lookup functions, the remote Nomad Variables client becomes an
abstract response function, and every public operation additionally returns
the list of remote calls it issued (so that "no remote read happened" is a
statable property).  JSON encoding/decoding (`json.Marshal` /
`json.Unmarshal`) is kept abstract as encode/decode parameters, since its
byte-level behaviour is external library code; `json.Marshal` of the
artifact struct types cannot fail in Go, so encoding is modelled as a total
function.
-/

namespace NomadAcme

/-- Go `strings.TrimPrefix(s, pre)`: drop `pre` from the front of `s` when
present, otherwise return `s` unchanged.  Stated over the character list of
the string so that it evaluates by kernel reduction. -/
def goTrimPre (s pre : String) : String :=
  if pre.data.isPrefixOf s.data then String.mk (s.data.drop pre.data.length) else s

/-- Go `strings.ToLower` restricted to ASCII (resolver names are ASCII in
this code base); each uppercase ASCII letter is mapped to lowercase. -/
def goToLower (s : String) : String :=
  String.mk (s.data.map Char.toLower)

/-- Splitting a character list on a separator, with the semantics of Go
`strings.Split` on one-character separators: the empty list yields one
empty field, and adjacent separators yield empty fields. -/
def splitOnChar (sep : Char) (cs : List Char) : List (List Char) :=
  match cs with
  | [] => [[]]
  | c :: rest =>
    match splitOnChar sep rest with
    | [] => [[]]
    | cur :: acc => if c = sep then [] :: cur :: acc else (c :: cur) :: acc

/-- Go `path.Clean`: split on slashes, drop empty and `.` elements, resolve
`..` against a stack (a `..` at the root of a rooted path is dropped, a
`..` that cannot cancel a preceding element of a relative path is kept),
and re-join; the empty path cleans to `.`. -/
def goPathClean (p : String) : String :=
  if p = "" then "." else
  let rooted := p.data.head? = some '/'
  let comps := (splitOnChar '/' p.data).filter (fun c => c ≠ [] && c ≠ ['.'])
  let stack := comps.foldl (fun acc c =>
    if c = ['.', '.'] then
      if rooted then acc.dropLast
      else if acc ≠ [] && acc.getLast? ≠ some ['.', '.'] then acc.dropLast
      else acc ++ [['.', '.']]
    else acc ++ [c]) []
  let s := List.intercalate ['/'] stack
  if rooted then String.mk ('/' :: s)
  else if s = [] then "." else String.mk s

/-- Go `path.Join(a, b)`: drop empty elements, join the rest with a slash
and clean the result; all-empty input yields the empty string. -/
def goPathJoin (a b : String) : String :=
  let elems := ([a, b].filter (fun e => e ≠ "")).map String.data
  if elems = [] then ""
  else goPathClean (String.mk (List.intercalate ['/'] elems))

/-- The error universe of the Go code as seen by `NomadStore`:
`ErrNoNomadVariableForResolver` and `api.ErrVariablePathNotFound` are the
two sentinel errors compared against; `decodeError` models the errors
produced by `json.Unmarshal`; `remote` models any other error coming back
from the Nomad API client. -/
inductive GoError where
  | errNoNomadVariableForResolver
  | errVariablePathNotFound
  | decodeError (msg : String)
  | remote (msg : String)
deriving DecidableEq, Repr

/-- `api.VariableItems`, a `map[string]string`, modelled as an association
list with Go map lookup semantics (`items[key]` yields the zero value `""`
when the key is absent). -/
def VariableItems := List (String × String)

/-- Go map indexing `items[key]` on `api.VariableItems`: the stored value,
or the zero value `""` when absent. -/
def itemsIndex (items : VariableItems) (key : String) : String :=
  match items.lookup key with
  | some v => v
  | none => ""

/-- `api.Variable`: the path together with its item set. -/
structure Variable where
  path : String
  items : List (String × String)
deriving DecidableEq, Repr

/-- One remote call issued through the `nomadVariablesAPI` interface:
either a `GetVariableItems` read of a path or a `Create` write of a whole
variable. -/
inductive RemoteCall where
  | read (path : String)
  | create (v : Variable)
deriving DecidableEq, Repr

/-- The `nomadVariablesAPI` client, modelled as a pure response function:
`read p` is the outcome of `GetVariableItems(p, nil)` (items on success,
`errVariablePathNotFound` or another error on failure) and `write v` is
the error outcome of `Create(v, nil)` (`none` is success). -/
structure Client where
  read : String → Except GoError (List (String × String))
  write : Variable → Option GoError

/-- `NomadStore`: the per-resolver certificate cache, account cache and
variables-path binding map.  Go maps become lookup functions; the `client`
handle and the mutex are factored out (operations take the client as a
parameter and are already atomic in this sequential model). -/
structure NomadStore (A C : Type) where
  certCache : String → Option (List C)
  accountCache : String → Option A
  paths : String → Option String

/-- Go map assignment `m[k] = v`: point update of a lookup function. -/
def mapSet {α : Type} (m : String → Option α) (k : String) (v : α) :
    String → Option α :=
  fun x => if x = k then some v else m x

/-- The item-key literal `nomadStoreAccountType = "account"`. -/
def nomadStoreAccountType : String := "account"

/-- The item-key literal `nomadStoreCertsType = "certificates"`. -/
def nomadStoreCertsType : String := "certificates"

/-- The ambient Nomad task environment read by `SetResolver` via
`os.Getenv` (`NOMAD_JOB_NAME`, `NOMAD_GROUP`, `NOMAD_TASK_NAME`), passed
explicitly in the embedding. -/
structure NomadEnv where
  job : String
  group : String
  task : String

/-- `NomadStore.SetResolver`: strip the `nomad://` scheme from the hint;
if the remainder is empty, derive
`nomad/jobs/<job>/<group>/<task>/acme/<lower(resolver)>` from the ambient
environment; store the binding.  Returns the updated store (the Go method
returns the receiver and has no error result). -/
def SetResolver {A C : Type} (env : NomadEnv) (ns : NomadStore A C)
    (resolverName variablesPath : String) : NomadStore A C :=
  let p := goTrimPre variablesPath "nomad://"
  let p := if p = "" then
      "nomad/jobs/" ++ env.job ++ "/" ++ env.group ++ "/" ++ env.task ++
        "/acme/" ++ goToLower resolverName
    else p
  { ns with paths := mapSet ns.paths resolverName p }

/-- `NomadStore.pathForResolverLocked`: look up the bound variables path
of the resolver; absent or empty means "no binding" (`false` in Go, `none`
here); otherwise join the bound path with the item-type segment. -/
def pathForResolverLocked {A C : Type} (ns : NomadStore A C)
    (resolverName itemType : String) : Option String :=
  match ns.paths resolverName with
  | none => none
  | some resolverPath =>
    if resolverPath = "" then none
    else some (goPathJoin resolverPath itemType)

/-- Generic `get[T]`: issue `GetVariableItems(varPath)`; on a read error
return it; otherwise `json.Unmarshal` the `key` item (the zero value `""`
when the item is absent), wrapping an unmarshal failure as a decode error.
The second component is the list of remote calls issued. -/
def get {T : Type} (client : Client) (decode : String → Except String T)
    (varPath key : String) : Except GoError T × List RemoteCall :=
  match client.read varPath with
  | Except.error e => (Except.error e, [RemoteCall.read varPath])
  | Except.ok items =>
    match decode (itemsIndex items key) with
    | Except.error msg =>
      (Except.error (GoError.decodeError msg), [RemoteCall.read varPath])
    | Except.ok v => (Except.ok v, [RemoteCall.read varPath])

/-- Generic `put[T]`: `json.Marshal` the item and `Create` a variable at
`varPath` whose item set is exactly the single entry `key ↦ payload`,
replacing whatever was stored there.  Returns the write outcome and the
remote calls issued. -/
def put {T : Type} (client : Client) (encode : T → String)
    (varPath key : String) (item : T) : Option GoError × List RemoteCall :=
  let v : Variable := { path := varPath, items := [(key, encode item)] }
  (client.write v, [RemoteCall.create v])

/-- `NomadStore.GetAccount`: serve from the account cache when present;
otherwise resolve the path (failing with
`ErrNoNomadVariableForResolver` when unbound), read the `"account"` item,
convert `api.ErrVariablePathNotFound` to `(nil, nil)`, propagate any other
error, and on success populate the cache and return the account.  Result:
(return value, updated store, remote calls issued). -/
def GetAccount {A C : Type} (client : Client)
    (decodeAccount : String → Except String A) (ns : NomadStore A C)
    (resolverName : String) :
    Except GoError (Option A) × NomadStore A C × List RemoteCall :=
  match ns.accountCache resolverName with
  | some account => (Except.ok (some account), ns, [])
  | none =>
    match pathForResolverLocked ns resolverName nomadStoreAccountType with
    | none => (Except.error GoError.errNoNomadVariableForResolver, ns, [])
    | some accountPath =>
      match get client decodeAccount accountPath nomadStoreAccountType with
      | (Except.error GoError.errVariablePathNotFound, calls) =>
        (Except.ok none, ns, calls)
      | (Except.error e, calls) => (Except.error e, ns, calls)
      | (Except.ok account, calls) =>
        (Except.ok (some account),
          { ns with accountCache := mapSet ns.accountCache resolverName account },
          calls)

/-- `NomadStore.SaveAccount`: write the account into the cache first
(write-through), then resolve the path (failing with
`ErrNoNomadVariableForResolver` when unbound, the cache entry retained) and
`put` the account at it.  Result: (error outcome, updated store, remote
calls issued). -/
def SaveAccount {A C : Type} (client : Client) (encodeAccount : A → String)
    (ns : NomadStore A C) (resolverName : String) (account : A) :
    Option GoError × NomadStore A C × List RemoteCall :=
  let ns1 := { ns with accountCache := mapSet ns.accountCache resolverName account }
  match pathForResolverLocked ns1 resolverName nomadStoreAccountType with
  | none => (some GoError.errNoNomadVariableForResolver, ns1, [])
  | some accountPath =>
    let r := put client encodeAccount accountPath nomadStoreAccountType account
    (r.1, ns1, r.2)

/-- `NomadStore.GetCertificates`: same shape as `GetAccount`, over the
certificate cache and the `"certificates"` item. -/
def GetCertificates {A C : Type} (client : Client)
    (decodeCerts : String → Except String (List C)) (ns : NomadStore A C)
    (resolverName : String) :
    Except GoError (Option (List C)) × NomadStore A C × List RemoteCall :=
  match ns.certCache resolverName with
  | some certificates => (Except.ok (some certificates), ns, [])
  | none =>
    match pathForResolverLocked ns resolverName nomadStoreCertsType with
    | none => (Except.error GoError.errNoNomadVariableForResolver, ns, [])
    | some certPath =>
      match get client decodeCerts certPath nomadStoreCertsType with
      | (Except.error GoError.errVariablePathNotFound, calls) =>
        (Except.ok none, ns, calls)
      | (Except.error e, calls) => (Except.error e, ns, calls)
      | (Except.ok certificates, calls) =>
        (Except.ok (some certificates),
          { ns with certCache := mapSet ns.certCache resolverName certificates },
          calls)

/-- `NomadStore.SaveCertificates`: same shape as `SaveAccount`, over the
certificate cache and the `"certificates"` item. -/
def SaveCertificates {A C : Type} (client : Client)
    (encodeCerts : List C → String) (ns : NomadStore A C)
    (resolverName : String) (certificates : List C) :
    Option GoError × NomadStore A C × List RemoteCall :=
  let ns1 := { ns with certCache := mapSet ns.certCache resolverName certificates }
  match pathForResolverLocked ns1 resolverName nomadStoreCertsType with
  | none => (some GoError.errNoNomadVariableForResolver, ns1, [])
  | some certPath =>
    let r := put client encodeCerts certPath nomadStoreCertsType certificates
    (r.1, ns1, r.2)

/-! Helper lemmas shared by the claim theorems. -/

theorem mapSet_same {α : Type} (m : String → Option α) (k : String) (v : α) :
    mapSet m k v k = some v := by
  simp [mapSet]

theorem saveAccount_store {A C : Type} (client : Client) (encodeAccount : A → String)
    (ns : NomadStore A C) (resolverName : String) (account : A) :
    (SaveAccount client encodeAccount ns resolverName account).2.1
      = { ns with accountCache := mapSet ns.accountCache resolverName account } := by
  unfold SaveAccount
  cases h : pathForResolverLocked
      { ns with accountCache := mapSet ns.accountCache resolverName account }
      resolverName nomadStoreAccountType <;> simp [h]

theorem saveCertificates_store {A C : Type} (client : Client)
    (encodeCerts : List C → String) (ns : NomadStore A C) (resolverName : String)
    (certificates : List C) :
    (SaveCertificates client encodeCerts ns resolverName certificates).2.1
      = { ns with certCache := mapSet ns.certCache resolverName certificates } := by
  unfold SaveCertificates
  cases h : pathForResolverLocked
      { ns with certCache := mapSet ns.certCache resolverName certificates }
      resolverName nomadStoreCertsType <;> simp [h]

/-! Concrete fixtures used by the witness theorems: a store of naturals with
every resolver bound to the path `traefik/acme`, one with no bindings, and
clients with fixed responses. -/

def boundStore : NomadStore Nat Nat :=
  { certCache := fun _ => none
    accountCache := fun _ => none
    paths := fun _ => some "traefik/acme" }

def unboundStore : NomadStore Nat Nat :=
  { certCache := fun _ => none
    accountCache := fun _ => none
    paths := fun _ => none }

def writeOkClient : Client :=
  { read := fun _ => Except.error (GoError.remote "boom")
    write := fun _ => none }

def notFoundClient : Client :=
  { read := fun _ => Except.error GoError.errVariablePathNotFound
    write := fun _ => none }

def emptyItemsClient : Client :=
  { read := fun _ => Except.ok []
    write := fun _ => none }

def decNat : String → Except String Nat :=
  fun s => if s = "7" then Except.ok 7 else Except.error "invalid payload"

def decNatList : String → Except String (List Nat) :=
  fun s => if s = "[3]" then Except.ok [3] else Except.error "invalid payload"

def encNat : Nat → String := fun _ => "7"

def encNatList : List Nat → String := fun _ => "[3]"

/-- C1: after `SaveAccount(O, A)` succeeds, a subsequent `GetAccount(O)`
returns exactly `A`, changes nothing, and issues no remote call (the cache
hit precedes any path or remote-client work); likewise for
`SaveCertificates` followed by `GetCertificates`. -/
theorem getAfterSave_cacheHit_noRemoteRead {A C : Type} (client : Client)
    (decodeAccount : String → Except String A) (encodeAccount : A → String)
    (decodeCerts : String → Except String (List C)) (encodeCerts : List C → String)
    (ns : NomadStore A C) (owner : String) (acct : A) (certs : List C)
    (hA : (SaveAccount client encodeAccount ns owner acct).1 = none)
    (hC : (SaveCertificates client encodeCerts ns owner certs).1 = none) :
    GetAccount client decodeAccount
        (SaveAccount client encodeAccount ns owner acct).2.1 owner
      = (Except.ok (some acct),
         (SaveAccount client encodeAccount ns owner acct).2.1, [])
    ∧ GetCertificates client decodeCerts
        (SaveCertificates client encodeCerts ns owner certs).2.1 owner
      = (Except.ok (some certs),
         (SaveCertificates client encodeCerts ns owner certs).2.1, []) := by
  rw [saveAccount_store, saveCertificates_store]
  constructor
  · unfold GetAccount
    simp [mapSet_same]
  · unfold GetCertificates
    simp [mapSet_same]

theorem getAfterSave_cacheHit_noRemoteRead_witness :
    (SaveAccount writeOkClient encNat boundStore "le" 7).1 = none
    ∧ GetAccount writeOkClient decNat
        (SaveAccount writeOkClient encNat boundStore "le" 7).2.1 "le"
      = (Except.ok (some 7),
         (SaveAccount writeOkClient encNat boundStore "le" 7).2.1, []) := by
  refine ⟨rfl, ?_⟩
  exact (getAfterSave_cacheHit_noRemoteRead writeOkClient decNat encNat decNatList
    encNatList boundStore "le" 7 [3] rfl rfl).1

/-- C3: `SaveAccount(O, V)` (resp. `SaveCertificates(O, V)`) writes `V`
into the cache for `O` unconditionally, before path resolution or any
remote work, so the cache holds `V` afterwards no matter what the call
returned. -/
theorem save_populatesCache_unconditionally {A C : Type} (client : Client)
    (encodeAccount : A → String) (encodeCerts : List C → String)
    (ns : NomadStore A C) (owner : String) (acct : A) (certs : List C) :
    (SaveAccount client encodeAccount ns owner acct).2.1.accountCache owner
      = some acct
    ∧ (SaveCertificates client encodeCerts ns owner certs).2.1.certCache owner
      = some certs := by
  rw [saveAccount_store, saveCertificates_store]
  exact ⟨mapSet_same _ _ _, mapSet_same _ _ _⟩

/-- C2: for an owner with no path binding and no cache entry, every one of
the four operations fails with `ErrNoNomadVariableForResolver` and issues
no remote call. -/
theorem noBinding_allOps_fail_noRemoteCall {A C : Type} (client : Client)
    (decodeAccount : String → Except String A) (encodeAccount : A → String)
    (decodeCerts : String → Except String (List C)) (encodeCerts : List C → String)
    (ns : NomadStore A C) (owner : String) (acct : A) (certs : List C)
    (hp : ns.paths owner = none)
    (ha : ns.accountCache owner = none)
    (hc : ns.certCache owner = none) :
    GetAccount client decodeAccount ns owner
      = (Except.error GoError.errNoNomadVariableForResolver, ns, [])
    ∧ GetCertificates client decodeCerts ns owner
      = (Except.error GoError.errNoNomadVariableForResolver, ns, [])
    ∧ (SaveAccount client encodeAccount ns owner acct).1
      = some GoError.errNoNomadVariableForResolver
    ∧ (SaveAccount client encodeAccount ns owner acct).2.2 = []
    ∧ (SaveCertificates client encodeCerts ns owner certs).1
      = some GoError.errNoNomadVariableForResolver
    ∧ (SaveCertificates client encodeCerts ns owner certs).2.2 = [] := by
  refine ⟨?_, ?_, ?_, ?_, ?_, ?_⟩ <;>
    simp only [GetAccount, GetCertificates, SaveAccount, SaveCertificates,
      pathForResolverLocked, ha, hc, hp]

theorem noBinding_allOps_fail_noRemoteCall_witness :
    unboundStore.paths "le" = none
    ∧ unboundStore.accountCache "le" = none
    ∧ unboundStore.certCache "le" = none
    ∧ GetAccount writeOkClient decNat unboundStore "le"
      = (Except.error GoError.errNoNomadVariableForResolver, unboundStore, []) := by
  refine ⟨rfl, rfl, rfl, ?_⟩
  exact (noBinding_allOps_fail_noRemoteCall writeOkClient decNat encNat decNatList
    encNatList unboundStore "le" 7 [3] rfl rfl rfl).1

/-- C4: for a bound owner not in the cache, a remote read failure other
than path-not-found, or a decoding failure of the fetched payload, is
returned exactly as produced and the store (both caches) is left
unchanged; stated for `GetAccount` and `GetCertificates`. -/
theorem getError_propagated_cacheUntouched {A C : Type} (client : Client)
    (decodeAccount : String → Except String A)
    (decodeCerts : String → Except String (List C))
    (ns : NomadStore A C) (owner : String)
    (ha : ns.accountCache owner = none)
    (hc : ns.certCache owner = none) :
    (∀ p e, pathForResolverLocked ns owner nomadStoreAccountType = some p →
      client.read p = Except.error e → e ≠ GoError.errVariablePathNotFound →
      GetAccount client decodeAccount ns owner
        = (Except.error e, ns, [RemoteCall.read p]))
    ∧ (∀ p items msg, pathForResolverLocked ns owner nomadStoreAccountType = some p →
      client.read p = Except.ok items →
      decodeAccount (itemsIndex items nomadStoreAccountType) = Except.error msg →
      GetAccount client decodeAccount ns owner
        = (Except.error (GoError.decodeError msg), ns, [RemoteCall.read p]))
    ∧ (∀ p e, pathForResolverLocked ns owner nomadStoreCertsType = some p →
      client.read p = Except.error e → e ≠ GoError.errVariablePathNotFound →
      GetCertificates client decodeCerts ns owner
        = (Except.error e, ns, [RemoteCall.read p]))
    ∧ (∀ p items msg, pathForResolverLocked ns owner nomadStoreCertsType = some p →
      client.read p = Except.ok items →
      decodeCerts (itemsIndex items nomadStoreCertsType) = Except.error msg →
      GetCertificates client decodeCerts ns owner
        = (Except.error (GoError.decodeError msg), ns, [RemoteCall.read p])) := by
  refine ⟨?_, ?_, ?_, ?_⟩
  · intro p e hp hr hne
    cases e <;> first
      | exact absurd rfl hne
      | simp only [GetAccount, get, ha, hp, hr]
  · intro p items msg hp hr hd
    simp only [GetAccount, get, ha, hp, hr, hd]
  · intro p e hp hr hne
    cases e <;> first
      | exact absurd rfl hne
      | simp only [GetCertificates, get, hc, hp, hr]
  · intro p items msg hp hr hd
    simp only [GetCertificates, get, hc, hp, hr, hd]

theorem getError_propagated_cacheUntouched_witness :
    boundStore.accountCache "le" = none
    ∧ pathForResolverLocked boundStore "le" nomadStoreAccountType
      = some "traefik/acme/account"
    ∧ writeOkClient.read "traefik/acme/account"
      = Except.error (GoError.remote "boom")
    ∧ GoError.remote "boom" ≠ GoError.errVariablePathNotFound
    ∧ GetAccount writeOkClient decNat boundStore "le"
      = (Except.error (GoError.remote "boom"), boundStore,
         [RemoteCall.read "traefik/acme/account"]) := by
  refine ⟨rfl, by decide, rfl, by decide, ?_⟩
  exact (getError_propagated_cacheUntouched writeOkClient decNat decNatList
    boundStore "le" rfl rfl).1 "traefik/acme/account" (GoError.remote "boom")
    (by decide) rfl (by decide)

/-- C5: for a bound owner not in the cache, a remote path-not-found is
converted to a success with no data: `GetAccount` returns `(none, no
error)` and `GetCertificates` returns `(none, no error)`, each after
exactly one remote read, leaving the store unchanged. -/
theorem getNotFound_isSuccessNoData {A C : Type} (client : Client)
    (decodeAccount : String → Except String A)
    (decodeCerts : String → Except String (List C))
    (ns : NomadStore A C) (owner pA pC : String)
    (ha : ns.accountCache owner = none)
    (hc : ns.certCache owner = none)
    (hpA : pathForResolverLocked ns owner nomadStoreAccountType = some pA)
    (hpC : pathForResolverLocked ns owner nomadStoreCertsType = some pC)
    (hrA : client.read pA = Except.error GoError.errVariablePathNotFound)
    (hrC : client.read pC = Except.error GoError.errVariablePathNotFound) :
    GetAccount client decodeAccount ns owner
      = (Except.ok none, ns, [RemoteCall.read pA])
    ∧ GetCertificates client decodeCerts ns owner
      = (Except.ok none, ns, [RemoteCall.read pC]) := by
  constructor
  · simp only [GetAccount, get, ha, hpA, hrA]
  · simp only [GetCertificates, get, hc, hpC, hrC]

theorem getNotFound_isSuccessNoData_witness :
    boundStore.accountCache "le" = none
    ∧ notFoundClient.read "traefik/acme/account"
      = Except.error GoError.errVariablePathNotFound
    ∧ GetAccount notFoundClient decNat boundStore "le"
      = (Except.ok none, boundStore, [RemoteCall.read "traefik/acme/account"])
    ∧ GetCertificates notFoundClient decNatList boundStore "le"
      = (Except.ok none, boundStore, [RemoteCall.read "traefik/acme/certificates"]) := by
  have h := getNotFound_isSuccessNoData notFoundClient decNat decNatList boundStore
    "le" "traefik/acme/account" "traefik/acme/certificates" rfl rfl (by decide)
    (by decide) rfl rfl
  exact ⟨rfl, rfl, h.1, h.2⟩

theorem pathForResolverLocked_setAccountCache {A C : Type} (ns : NomadStore A C)
    (m : String → Option A) (r t : String) :
    pathForResolverLocked { ns with accountCache := m } r t
      = pathForResolverLocked ns r t := rfl

theorem pathForResolverLocked_setCertCache {A C : Type} (ns : NomadStore A C)
    (m : String → Option (List C)) (r t : String) :
    pathForResolverLocked { ns with certCache := m } r t
      = pathForResolverLocked ns r t := rfl

/-- C6: when the hint stripped of its `nomad://` scheme is empty,
`SetResolver` binds the owner to
`nomad/jobs/<job>/<group>/<task>/acme/<lower(owner)>` built from the
ambient environment read at bind time. -/
theorem setResolver_autoDerivesPath {A C : Type} (env : NomadEnv)
    (ns : NomadStore A C) (owner hint : String)
    (h : goTrimPre hint "nomad://" = "") :
    (SetResolver env ns owner hint).paths owner
      = some ("nomad/jobs/" ++ env.job ++ "/" ++ env.group ++ "/" ++ env.task
          ++ "/acme/" ++ goToLower owner) := by
  simp only [SetResolver, h, mapSet_same, reduceIte]

theorem setResolver_autoDerivesPath_witness :
    goTrimPre "nomad://" "nomad://" = ""
    ∧ (SetResolver ⟨"job1", "group1", "task1"⟩ unboundStore "le" "nomad://").paths "le"
      = some "nomad/jobs/job1/group1/task1/acme/le" := by
  refine ⟨by decide, ?_⟩
  have h := setResolver_autoDerivesPath ⟨"job1", "group1", "task1"⟩ unboundStore
    "le" "nomad://" (by decide)
  exact h.trans (by decide)

/-- C7: when the hint stripped of its `nomad://` scheme is non-empty,
`SetResolver` binds the owner to that stripped remainder verbatim, with no
auto-derivation; the operation is total (no error result in the Go
signature). -/
theorem setResolver_explicitPathVerbatim {A C : Type} (env : NomadEnv)
    (ns : NomadStore A C) (owner hint : String)
    (h : goTrimPre hint "nomad://" ≠ "") :
    (SetResolver env ns owner hint).paths owner
      = some (goTrimPre hint "nomad://") := by
  simp only [SetResolver, if_neg h, mapSet_same]

theorem setResolver_explicitPathVerbatim_witness :
    goTrimPre "nomad://traefik/acme" "nomad://" ≠ ""
    ∧ (SetResolver ⟨"job1", "group1", "task1"⟩ unboundStore "pebble"
        "nomad://traefik/acme").paths "pebble"
      = some "traefik/acme" := by
  refine ⟨by decide, ?_⟩
  have h := setResolver_explicitPathVerbatim ⟨"job1", "group1", "task1"⟩
    unboundStore "pebble" "nomad://traefik/acme" (by decide)
  exact h.trans (by decide)

/-- C8: every remote write issued by `SaveAccount` / `SaveCertificates` is
a single `Create` whose item set is exactly one entry, keyed by the
artifact-kind literal, valued by the serialization of the saved value —
replacing the whole item set at the path, with no sibling items merged
in. -/
theorem save_writesSingleItemSet {A C : Type} (client : Client)
    (encodeAccount : A → String) (encodeCerts : List C → String)
    (ns : NomadStore A C) (owner pA pC : String) (acct : A) (certs : List C)
    (hpA : pathForResolverLocked ns owner nomadStoreAccountType = some pA)
    (hpC : pathForResolverLocked ns owner nomadStoreCertsType = some pC) :
    (SaveAccount client encodeAccount ns owner acct).2.2
      = [RemoteCall.create
          { path := pA, items := [(nomadStoreAccountType, encodeAccount acct)] }]
    ∧ (SaveCertificates client encodeCerts ns owner certs).2.2
      = [RemoteCall.create
          { path := pC, items := [(nomadStoreCertsType, encodeCerts certs)] }] := by
  constructor
  · simp only [SaveAccount, put, pathForResolverLocked_setAccountCache, hpA]
  · simp only [SaveCertificates, put, pathForResolverLocked_setCertCache, hpC]

theorem save_writesSingleItemSet_witness :
    pathForResolverLocked boundStore "le" nomadStoreAccountType
      = some "traefik/acme/account"
    ∧ (SaveAccount writeOkClient encNat boundStore "le" 7).2.2
      = [RemoteCall.create
          { path := "traefik/acme/account", items := [("account", "7")] }] := by
  refine ⟨by decide, ?_⟩
  have h := (save_writesSingleItemSet writeOkClient encNat encNatList boundStore
    "le" "traefik/acme/account" "traefik/acme/certificates" 7 [3]
    (by decide) (by decide)).1
  exact h.trans (by decide)

/-- C9: when the item set at the resolved path exists but holds no entry
under the artifact-kind key, the zero-value `""` lookup is fed to the
decoder, so the call returns a decoding error — not the `(nil, nil)`
no-data success — and the store is left unchanged. -/
theorem getMissingItem_decodeError {A C : Type} (client : Client)
    (decodeAccount : String → Except String A)
    (decodeCerts : String → Except String (List C))
    (ns : NomadStore A C) (owner pA pC : String)
    (itemsA itemsC : List (String × String)) (msgA msgC : String)
    (ha : ns.accountCache owner = none) (hc : ns.certCache owner = none)
    (hpA : pathForResolverLocked ns owner nomadStoreAccountType = some pA)
    (hpC : pathForResolverLocked ns owner nomadStoreCertsType = some pC)
    (hrA : client.read pA = Except.ok itemsA)
    (hrC : client.read pC = Except.ok itemsC)
    (hkA : itemsA.lookup nomadStoreAccountType = none)
    (hkC : itemsC.lookup nomadStoreCertsType = none)
    (hdA : decodeAccount "" = Except.error msgA)
    (hdC : decodeCerts "" = Except.error msgC) :
    GetAccount client decodeAccount ns owner
      = (Except.error (GoError.decodeError msgA), ns, [RemoteCall.read pA])
    ∧ GetCertificates client decodeCerts ns owner
      = (Except.error (GoError.decodeError msgC), ns, [RemoteCall.read pC]) := by
  have hiA : itemsIndex itemsA nomadStoreAccountType = "" := by
    simp [itemsIndex, hkA]
  have hiC : itemsIndex itemsC nomadStoreCertsType = "" := by
    simp [itemsIndex, hkC]
  constructor
  · simp only [GetAccount, get, ha, hpA, hrA, hiA, hdA]
  · simp only [GetCertificates, get, hc, hpC, hrC, hiC, hdC]

theorem getMissingItem_decodeError_witness :
    emptyItemsClient.read "traefik/acme/account" = Except.ok []
    ∧ decNat "" = Except.error "invalid payload"
    ∧ GetAccount emptyItemsClient decNat boundStore "le"
      = (Except.error (GoError.decodeError "invalid payload"), boundStore,
         [RemoteCall.read "traefik/acme/account"]) := by
  refine ⟨rfl, rfl, ?_⟩
  exact (getMissingItem_decodeError emptyItemsClient decNat decNatList boundStore
    "le" "traefik/acme/account" "traefik/acme/certificates" [] [] "invalid payload"
    "invalid payload" rfl rfl (by decide) (by decide) rfl rfl rfl rfl
    rfl rfl).1

/-- C10: a get that observes remote path-not-found inserts nothing into
either cache map, so the store is unchanged field by field and a repeated
call issues a fresh remote read again — absence is never cached. -/
theorem getNotFound_neverCached_freshReads {A C : Type} (client : Client)
    (decodeAccount : String → Except String A)
    (decodeCerts : String → Except String (List C))
    (ns : NomadStore A C) (owner pA pC : String)
    (ha : ns.accountCache owner = none)
    (hc : ns.certCache owner = none)
    (hpA : pathForResolverLocked ns owner nomadStoreAccountType = some pA)
    (hpC : pathForResolverLocked ns owner nomadStoreCertsType = some pC)
    (hrA : client.read pA = Except.error GoError.errVariablePathNotFound)
    (hrC : client.read pC = Except.error GoError.errVariablePathNotFound) :
    (GetAccount client decodeAccount ns owner).2.1.accountCache = ns.accountCache
    ∧ (GetAccount client decodeAccount ns owner).2.1.certCache = ns.certCache
    ∧ (GetAccount client decodeAccount ns owner).2.2 = [RemoteCall.read pA]
    ∧ GetAccount client decodeAccount
        (GetAccount client decodeAccount ns owner).2.1 owner
      = (Except.ok none, ns, [RemoteCall.read pA])
    ∧ (GetCertificates client decodeCerts ns owner).2.1.accountCache
      = ns.accountCache
    ∧ (GetCertificates client decodeCerts ns owner).2.1.certCache = ns.certCache
    ∧ (GetCertificates client decodeCerts ns owner).2.2 = [RemoteCall.read pC]
    ∧ GetCertificates client decodeCerts
        (GetCertificates client decodeCerts ns owner).2.1 owner
      = (Except.ok none, ns, [RemoteCall.read pC]) := by
  have h1 : GetAccount client decodeAccount ns owner
      = (Except.ok none, ns, [RemoteCall.read pA]) := by
    simp only [GetAccount, get, ha, hpA, hrA]
  have h2 : GetCertificates client decodeCerts ns owner
      = (Except.ok none, ns, [RemoteCall.read pC]) := by
    simp only [GetCertificates, get, hc, hpC, hrC]
  refine ⟨by rw [h1], by rw [h1], by rw [h1], by rw [h1]; exact h1,
    by rw [h2], by rw [h2], by rw [h2], by rw [h2]; exact h2⟩

theorem getNotFound_neverCached_freshReads_witness :
    notFoundClient.read "traefik/acme/account"
      = Except.error GoError.errVariablePathNotFound
    ∧ (GetAccount notFoundClient decNat boundStore "le").2.2
      = [RemoteCall.read "traefik/acme/account"]
    ∧ GetAccount notFoundClient decNat
        (GetAccount notFoundClient decNat boundStore "le").2.1 "le"
      = (Except.ok none, boundStore, [RemoteCall.read "traefik/acme/account"]) := by
  have h := getNotFound_neverCached_freshReads notFoundClient decNat decNatList
    boundStore "le" "traefik/acme/account" "traefik/acme/certificates" rfl rfl
    (by decide) (by decide) rfl rfl
  exact ⟨rfl, h.2.2.1, h.2.2.2.1⟩

end NomadAcme
